import Mathlib

/-!
# Verification of the memaris core pipeline

A shallow embedding of the memaris repository's core pipeline:

* `src/src/utils/batching.ts` — token estimation (`estimateTokens`), the batch
  planner inside `processBatches`, the result merger `mergeAnalysisResults`,
  and the `SessionCleanup` self-pollution guard;
* the `ClaudeCodeAnalyzer.analyzeConversation` response-normalization block
  (defaulting of missing profile fields);
* `src/src/parsers/project-detector.ts` — the path codec
  (`pathToClaudeFolderName`) and the decode strategies of `isExactPathMatch`;
* `JSONLParser.parseSessionFile` — line-by-line transcript parsing.

Each TypeScript function is translated into an executable Lean definition of
the same name; filesystem and network effects are made explicit (the session
store becomes a list of `(sessionId, content)` pairs, the external analysis
call is out of scope, and `JSON.parse` / ISO-timestamp parsing are abstract
parameters).  The theorems at the end of the file settle the frozen claims
about these functions.
-/

/- ------------------------------------------------------------------ -/
/- Data model for transcript messages (src/src/types, as consumed by
   `estimateTokens` in src/src/utils/batching.ts).                     -/
/- ------------------------------------------------------------------ -/

/-- One entry of a `message.content` array: a text block (`type: 'text'`,
with its `text` payload, `''` standing for a missing `text` field, which JS
`join` renders as the empty string) or any non-text block such as a tool
invocation. -/
inductive ContentBlock where
  | text (t : String)
  | toolUse
deriving Repr, DecidableEq

/-- The `message.content` payload: either a bare string or a list of typed
blocks. -/
inductive MsgContent where
  | str (s : String)
  | blocks (bs : List ContentBlock)
deriving Repr, DecidableEq

/-- A transcript message, restricted to the fields `estimateTokens` and the
batch planner read: `type`, `message?.content` (`none` models a missing
`message` or missing `content`), and `summary`. -/
structure ClaudeMessage where
  type : String
  content : Option MsgContent
  summary : Option String
deriving Repr, DecidableEq

/-- The `text` of a content block when its `type` is `'text'`
(`block.type === 'text'` filter followed by `block.text` projection). -/
def textOfBlock : ContentBlock → Option String
  | ContentBlock.text t => some t
  | ContentBlock.toolUse => none

/-- `estimateTokens` from src/src/utils/batching.ts: extract the text of the
message (user/assistant: the string content, or the text blocks joined with
newlines; summary: `"[Session Summary: …]"`; otherwise
`"[Non-text message]"`) and estimate `Math.ceil(length / 4)` tokens. -/
def estimateTokens (message : ClaudeMessage) : Nat :=
  let content : String :=
    if message.type == "user" || message.type == "assistant" then
      match message.content with
      | some (MsgContent.str s) => s
      | some (MsgContent.blocks bs) =>
          String.intercalate "\n" (bs.filterMap textOfBlock)
      | none => ""
    else if message.type == "summary" then
      match message.summary with
      | some s =>
          if s.isEmpty then "[Non-text message]"
          else "[Session Summary: " ++ s ++ "]"
      | none => "[Non-text message]"
    else "[Non-text message]"
  (content.length + 3) / 4

/-- Total estimated tokens of a message list (the `reduce` at the top of
`processBatches`). -/
def totalTokens (messages : List ClaudeMessage) : Nat :=
  (messages.map estimateTokens).sum

/-- `Math.ceil(totalTokens / batchSize)`: the number of loop iterations
`processBatches` performs. -/
def batchesNeeded (messages : List ClaudeMessage) (batchSize : Nat) : Nat :=
  (totalTokens messages + batchSize - 1) / batchSize

/-- The inner `while` loop of `processBatches`: starting from the accumulated
`batch` (with running token count `count`), keep appending messages from
`rest` while the count is below `batchSize`; stop early when the next message
would push the count past `batchSize` and the batch is non-empty.  Returns
the collected batch, its token count, and the unconsumed messages. -/
def collectBatchAux (batchSize : Nat) :
    List ClaudeMessage → List ClaudeMessage → Nat →
    List ClaudeMessage × Nat × List ClaudeMessage
  | [], batch, count => (batch, count, [])
  | msg :: rest, batch, count =>
    if count < batchSize then
      if batchSize < count + estimateTokens msg ∧ 0 < batch.length then
        (batch, count, msg :: rest)
      else
        collectBatchAux batchSize rest (batch ++ [msg])
          (count + estimateTokens msg)
    else (batch, count, msg :: rest)

/-- One execution of the batch-collection loop body with an empty batch. -/
def collectBatch (batchSize : Nat) (msgs : List ClaudeMessage) :
    List ClaudeMessage × Nat × List ClaudeMessage :=
  collectBatchAux batchSize msgs [] 0

/-- The outer `for (batchNum = 1; batchNum <= batchesNeeded; …)` loop of
`processBatches`: run the collection loop `n` times, threading the remaining
messages. -/
def runBatches (batchSize : Nat) : Nat → List ClaudeMessage → List (List ClaudeMessage)
  | 0, _ => []
  | n + 1, msgs =>
    let step := collectBatch batchSize msgs
    step.1 :: runBatches batchSize n step.2.2

/-- The batch-planning part of `processBatches` from
src/src/utils/batching.ts: the list of message batches it hands to the
analyzer, in order.  (The per-batch analysis call and the final merge are
modelled separately; they do not influence which batch a message lands in.) -/
def processBatches (messages : List ClaudeMessage) (batchSize : Nat) :
    List (List ClaudeMessage) :=
  runBatches batchSize (batchesNeeded messages batchSize) messages

/-- A user message whose 24-character content estimates to 6 tokens. -/
def msgSix : ClaudeMessage :=
  { type := "user", content := some (MsgContent.str "abcdabcdabcdabcdabcdabcd"),
    summary := none }

/-- A user message whose 80-character content estimates to 20 tokens. -/
def msgTwenty : ClaudeMessage :=
  { type := "user",
    content := some (MsgContent.str
      "01234567890123456789012345678901234567890123456789012345678901234567890123456789"),
    summary := none }

/-- A user message whose 44-character content estimates to 11 tokens. -/
def msgEleven : ClaudeMessage :=
  { type := "user",
    content := some (MsgContent.str "01234567890123456789012345678901234567890123"),
    summary := none }

/- ------------------------------------------------------------------ -/
/- AnalysisResult and `mergeAnalysisResults`
   (src/src/utils/batching.ts, lines 131–185).                         -/
/- ------------------------------------------------------------------ -/

/-- One `mistakes`/`successes` entry of an `AIAnalysisResult`. -/
structure Insight where
  itype : String
  description : String
  evidence : String
  lesson : String
deriving Repr, DecidableEq

/-- The `userProfile.environment` object. -/
structure Environment where
  os : String
  restrictions : List String
  tools : List String
deriving Repr, DecidableEq

/-- The `userProfile.style` object. -/
structure Style where
  verbosity : String
  techLevel : String
  patience : String
deriving Repr, DecidableEq

/-- The `userProfile` object. -/
structure UserProfile where
  environment : Environment
  style : Style
  boundaries : List String
  preferences : List String
deriving Repr, DecidableEq

/-- The `AIAnalysisResult` shape produced per batch and by the merger. -/
structure AnalysisResult where
  mistakes : List Insight
  successes : List Insight
  userProfile : UserProfile
  recommendations : List String
deriving Repr, DecidableEq

/-- `[...new Set(xs)]`: deduplicate by exact equality keeping first-seen
order; `seen` accumulates the values already emitted. -/
def dedupFirstAux (seen : List String) : List String → List String
  | [] => []
  | a :: l =>
    if a ∈ seen then dedupFirstAux seen l
    else a :: dedupFirstAux (a :: seen) l

/-- `[...new Set(xs)]` with an empty starting set. -/
def dedupFirst (l : List String) : List String :=
  dedupFirstAux [] l

/-- Insert an insight into a list sorted by descending `lesson` length (the
comparator `(a, b) => (b.lesson || '').length - (a.lesson || '').length`). -/
def insertByLesson (x : Insight) : List Insight → List Insight
  | [] => [x]
  | y :: l =>
    if y.lesson.length < x.lesson.length then x :: y :: l
    else y :: insertByLesson x l

/-- Sort insights by descending `lesson` length, as the merger's final
`.sort(...)` does. -/
def sortByLessonDesc (l : List Insight) : List Insight :=
  l.foldr insertByLesson []

/-- The merged-record construction of `mergeAnalysisResults` for two or more
results: scalar profile fields are copied from `r0` (`results[0]`); every list
field is the concatenation across `results` of that field, deduplicated;
mistakes and successes are concatenated and sorted by descending lesson
length. -/
def mergedResult (results : List AnalysisResult) (r0 : AnalysisResult) :
    AnalysisResult :=
  { mistakes := sortByLessonDesc ((results.map fun r => r.mistakes).flatten)
    successes := sortByLessonDesc ((results.map fun r => r.successes).flatten)
    userProfile :=
      { environment :=
          { os := r0.userProfile.environment.os
            restrictions :=
              dedupFirst ((results.map fun r =>
                r.userProfile.environment.restrictions).flatten)
            tools :=
              dedupFirst ((results.map fun r =>
                r.userProfile.environment.tools).flatten) }
        style :=
          { verbosity := r0.userProfile.style.verbosity
            techLevel := r0.userProfile.style.techLevel
            patience := r0.userProfile.style.patience }
        boundaries :=
          dedupFirst ((results.map fun r => r.userProfile.boundaries).flatten)
        preferences :=
          dedupFirst ((results.map fun r => r.userProfile.preferences).flatten) }
    recommendations :=
      dedupFirst ((results.map fun r => r.recommendations).flatten) }

/-- `mergeAnalysisResults` from src/src/utils/batching.ts: `null` on an empty
input, the sole result unchanged on a singleton, otherwise the merged
record. -/
def mergeAnalysisResults : List AnalysisResult → Option AnalysisResult
  | [] => none
  | [r] => some r
  | r0 :: rest => some (mergedResult (r0 :: rest) r0)

/-- An `AnalysisResult` with every field empty/unknown. -/
def emptyResult : AnalysisResult :=
  { mistakes := [], successes := []
    userProfile :=
      { environment := { os := "unknown", restrictions := [], tools := [] }
        style := { verbosity := "unknown", techLevel := "unknown", patience := "unknown" }
        boundaries := [], preferences := [] }
    recommendations := [] }

/-- A batch result that reports `os = "unknown"`. -/
def resultUnknownOS : AnalysisResult := emptyResult

/-- A batch result that reports `os = "linux"`. -/
def resultLinuxOS : AnalysisResult :=
  { emptyResult with
    userProfile :=
      { emptyResult.userProfile with
        environment := { emptyResult.userProfile.environment with os := "linux" } } }

/-- `vals.find(v => v !== "unknown") ?? "unknown"`.  Modelled from the spec:
"Scalar profile fields … take the first non-`"unknown"` value in batch
order"; used only to state what the spec demands, never as the code's
behaviour. -/
def firstNonUnknown (vals : List String) : String :=
  match vals.find? (fun v => v != "unknown") with
  | some v => v
  | none => "unknown"

/- ------------------------------------------------------------------ -/
/- Response normalization in `ClaudeCodeAnalyzer.analyzeConversation`
   (the defaulting block after `JSON.parse(cleanJson)`).               -/
/- ------------------------------------------------------------------ -/

/-- A dynamic JSON value as it can appear in a profile field of the parsed
analysis-service response: a string, an array of strings, or absent
(`undefined`). -/
inductive JVal where
  | jstr (s : String)
  | jarr (xs : List String)
  | jabsent
deriving Repr, DecidableEq

/-- The `userProfile.environment` object of the raw parsed response; scalar
`os` is a string or absent, the list fields are dynamic. -/
structure ParsedEnvironment where
  os : Option String
  restrictions : JVal
  tools : JVal
deriving Repr

/-- The `userProfile.style` object of the raw parsed response. -/
structure ParsedStyle where
  verbosity : Option String
  techLevel : Option String
  patience : Option String
deriving Repr

/-- The `userProfile` object of the raw parsed response; `environment` and
`style` may themselves be absent (`?.` chains). -/
structure ParsedProfile where
  environment : Option ParsedEnvironment
  style : Option ParsedStyle
  boundaries : JVal
  preferences : JVal
deriving Repr

/-- The raw `parsedResult` produced by `JSON.parse` on the cleaned response
text. -/
structure ParsedResult where
  mistakes : Option (List Insight)
  successes : Option (List Insight)
  userProfile : Option ParsedProfile
  recommendations : JVal
deriving Repr

/-- `parsedResult.userProfile?.environment?.os` (and the other scalar
chains): `none` models a missing link anywhere in the chain. -/
def osOf (p : ParsedResult) : Option String :=
  (p.userProfile.bind fun u => u.environment).bind fun e => e.os

/-- `parsedResult.userProfile?.style?.verbosity`. -/
def verbosityOf (p : ParsedResult) : Option String :=
  (p.userProfile.bind fun u => u.style).bind fun s => s.verbosity

/-- `parsedResult.userProfile?.style?.techLevel`. -/
def techLevelOf (p : ParsedResult) : Option String :=
  (p.userProfile.bind fun u => u.style).bind fun s => s.techLevel

/-- `parsedResult.userProfile?.style?.patience`. -/
def patienceOf (p : ParsedResult) : Option String :=
  (p.userProfile.bind fun u => u.style).bind fun s => s.patience

/-- `parsedResult.userProfile?.environment?.restrictions` as a dynamic
value. -/
def restrictionsOf (p : ParsedResult) : JVal :=
  match p.userProfile.bind fun u => u.environment with
  | some e => e.restrictions
  | none => JVal.jabsent

/-- `parsedResult.userProfile?.environment?.tools` as a dynamic value. -/
def toolsOf (p : ParsedResult) : JVal :=
  match p.userProfile.bind fun u => u.environment with
  | some e => e.tools
  | none => JVal.jabsent

/-- `parsedResult.userProfile?.boundaries` as a dynamic value. -/
def boundariesOf (p : ParsedResult) : JVal :=
  match p.userProfile with
  | some u => u.boundaries
  | none => JVal.jabsent

/-- `parsedResult.userProfile?.preferences` as a dynamic value. -/
def preferencesOf (p : ParsedResult) : JVal :=
  match p.userProfile with
  | some u => u.preferences
  | none => JVal.jabsent

/-- `x || dflt` for an optional string `x` (JS `||`: `undefined` and `''`
are falsy). -/
def strOrDefault (v : Option String) (dflt : String) : String :=
  match v with
  | some s => if s.isEmpty then dflt else s
  | none => dflt

/-- `Array.isArray(x) ? x : []` — used for `restrictions`, `tools` and
`recommendations`. -/
def arrOrEmpty : JVal → List String
  | JVal.jarr xs => xs
  | _ => []

/-- `Array.isArray(x) ? x : x === 'unknown' ? [] : [x].filter(Boolean)` —
used for `boundaries` and `preferences` (a lone non-empty string other than
`'unknown'` becomes a singleton list; `''` and `undefined` are filtered
out by `Boolean`). -/
def arrOrSingleton : JVal → List String
  | JVal.jarr xs => xs
  | JVal.jstr s => if s == "unknown" then [] else if s.isEmpty then [] else [s]
  | JVal.jabsent => []

/-- The `analysisResult` record that `ClaudeCodeAnalyzer.analyzeConversation`
builds from the parsed response: every field is defaulted per the source. -/
def normalizeAnalysisResult (p : ParsedResult) : AnalysisResult :=
  { mistakes := p.mistakes.getD []
    successes := p.successes.getD []
    userProfile :=
      { environment :=
          { os := strOrDefault (osOf p) "unknown"
            restrictions := arrOrEmpty (restrictionsOf p)
            tools := arrOrEmpty (toolsOf p) }
        style :=
          { verbosity := strOrDefault (verbosityOf p) "concise"
            techLevel := strOrDefault (techLevelOf p) "intermediate"
            patience := strOrDefault (patienceOf p) "medium" }
        boundaries := arrOrSingleton (boundariesOf p)
        preferences := arrOrSingleton (preferencesOf p) }
    recommendations := arrOrEmpty p.recommendations }

/-- A parsed response in which every field is missing. -/
def parsedAllMissing : ParsedResult :=
  { mistakes := none, successes := none, userProfile := none,
    recommendations := JVal.jabsent }

/-- A parsed response whose list fields all carry the literal string
`"unknown"`. -/
def parsedUnknownLists : ParsedResult :=
  { mistakes := none
    successes := none
    userProfile := some
      { environment := some
          { os := some "linux", restrictions := JVal.jstr "unknown",
            tools := JVal.jstr "unknown" }
        style := none
        boundaries := JVal.jstr "unknown"
        preferences := JVal.jstr "unknown" }
    recommendations := JVal.jstr "unknown" }

/- ------------------------------------------------------------------ -/
/- Path codec and decode strategies
   (src/src/parsers/project-detector.ts).                              -/
/- ------------------------------------------------------------------ -/

/-- The slash-to-dash global replace, on one character. -/
def slashToDash (c : Char) : Char := if c = '/' then '-' else c

/-- The dash-to-slash global replace, on one character. -/
def dashToSlash (c : Char) : Char := if c = '-' then '/' else c

/-- `ProjectDetector.pathToClaudeFolderName`:
`'-' + absolutePath.substring(1).replace(/\//g, '-')`. -/
def pathToClaudeFolderName (absolutePath : String) : String :=
  String.mk ('-' :: (absolutePath.data.drop 1).map slashToDash)

/-- Method 1 of `isExactPathMatch` ("all hyphens are separators"):
`'/'` prepended to `claudeProjectDir.substring(1)` with every dash replaced
by a slash. -/
def simplePathDecode (claudeProjectDir : String) : String :=
  String.mk ('/' :: (claudeProjectDir.data.drop 1).map dashToSlash)

/-- `str.split('-')` on a character list (JS semantics: splitting the empty
string yields `[""]`). -/
def splitDash : List Char → List (List Char)
  | [] => [[]]
  | c :: l =>
    if c = '-' then [] :: splitDash l
    else
      match splitDash l with
      | [] => [[c]]
      | s :: ss => (c :: s) :: ss

/-- `parts.join(sep)` on character lists. -/
def joinSep (sep : Char) : List (List Char) → List Char
  | [] => []
  | [s] => s
  | s :: rest => s ++ sep :: joinSep sep rest

/-- `currentPath.replace(/\/$/, '')`: strip one trailing separator. -/
def stripTrailingSlash (l : List Char) : List Char :=
  if l.getLast? = some '/' then l.dropLast else l

/-- Method `k ∈ {2,3}` of `isExactPathMatch`: treat the last `k`
hyphen-delimited segments as one path component —
`'/' + segments.slice(0, -k).join('/') + '/' + segments.slice(-k).join('-')`. -/
def reconstructK (k : Nat) (segments : List (List Char)) : List Char :=
  '/' :: (joinSep '/' (segments.take (segments.length - k)) ++
    '/' :: joinSep '-' (segments.drop (segments.length - k)))

/-- `ProjectDetector.isExactPathMatch`: after the leading-dash check, accept
if the naive decode, the last-2-segments decode (when at least 2 segments
exist) or the last-3-segments decode (when at least 3 exist) of the encoded
directory name equals the normalized working directory. -/
def isExactPathMatch (claudeProjectDir currentPath : String) : Bool :=
  if claudeProjectDir.data.head? = some '-' then
    let body := claudeProjectDir.data.drop 1
    let segments := splitDash body
    let norm := stripTrailingSlash currentPath.data
    if ('/' :: body.map dashToSlash) = norm then true
    else if 2 ≤ segments.length ∧ reconstructK 2 segments = norm then true
    else if 3 ≤ segments.length ∧ reconstructK 3 segments = norm then true
    else false
  else false

/- ------------------------------------------------------------------ -/
/- `JSONLParser.parseSessionFile` (transcript parsing).                -/
/- ------------------------------------------------------------------ -/

/-- The timestamp order used by `parseSessionFile`'s final `.sort`:
`new Date(a.timestamp).getTime() - new Date(b.timestamp).getTime() ≤ 0`,
with `timeOf` abstracting ISO-8601 parsing into milliseconds. -/
def timeLE {M : Type} (timeOf : M → Int) (a b : M) : Prop :=
  timeOf a ≤ timeOf b

instance {M : Type} (timeOf : M → Int) : DecidableRel (timeLE timeOf) :=
  fun _ _ => Int.decLe _ _

instance {M : Type} (timeOf : M → Int) : IsTotal M (timeLE timeOf) :=
  ⟨fun _ _ => Int.le_total _ _⟩

instance {M : Type} (timeOf : M → Int) : IsTrans M (timeLE timeOf) :=
  ⟨fun _ _ _ h1 h2 => Int.le_trans h1 h2⟩

/-- The per-line loop of `parseSessionFile`: blank lines are skipped
(`if (!line.trim()) continue`), each remaining line is handed to `JSON.parse`
independently, and a line whose parse fails is skipped (`catch … continue`)
without affecting the other lines.  `parseJson` abstracts
`JSON.parse(line) as ClaudeMessage` (`none` = the parse threw). -/
def collectParsedLines {M : Type} (parseJson : String → Option M)
    (lines : List String) : List M :=
  lines.filterMap fun line =>
    if line.trim.isEmpty then none else parseJson line

/-- `JSONLParser.parseSessionFile` on file content already read: trim the
content, split into lines, parse each line independently skipping blank and
malformed ones, and sort the survivors ascending by timestamp.  (The JS
comparator sort is modelled as insertion sort on the same key; the claim
constrains only sortedness and multiset contents.) -/
def parseSessionFile {M : Type} (parseJson : String → Option M)
    (timeOf : M → Int) (content : String) : List M :=
  let lines := content.trim.splitOn "\n"
  List.insertionSort (timeLE timeOf) (collectParsedLines parseJson lines)

/- ------------------------------------------------------------------ -/
/- `SessionCleanup` — the Self-Pollution Guard
   (src/src/utils/batching.ts, second compilation unit).               -/
/- ------------------------------------------------------------------ -/

/-- `needle` occurs at the head of `hay`. -/
def headMatches : List Char → List Char → Bool
  | [], _ => true
  | _ :: _, [] => false
  | a :: as, b :: bs => a == b && headMatches as bs

/-- `needle` occurs somewhere in `hay`. -/
def occursIn (needle : List Char) : List Char → Bool
  | [] => needle.isEmpty
  | c :: rest => headMatches needle (c :: rest) || occursIn needle rest

/-- `content.includes(pattern)`. -/
def strIncludes (content pattern : String) : Bool :=
  occursIn pattern.data content.data

/-- The fingerprint test of `SessionCleanup.cleanupSession`
(`isMemarisSession`): the file content contains one of the six substrings
unique to memaris's own analysis prompts. -/
def isMemarisSession (content : String) : Bool :=
  strIncludes content "Analyze the entire AI–human development session transcript" ||
  strIncludes content "Analyze a development session and extract an engaging developer story" ||
  strIncludes content "development session between a human developer and an AI assistant" ||
  strIncludes content "CONFIDENCE SCORING CRITERIA" ||
  strIncludes content "session-context" ||
  strIncludes content "analysis-criteria"

/-- The session store: the `.jsonl` files of the project directory as
`(sessionId, content)` pairs.  The filesystem keys files by name, so a real
store never holds two entries with the same id. -/
abbrev SessionStore := List (String × String)

/-- `SessionCleanup.cleanupSession sessionId`: if the file exists, read it
and delete it only when the fingerprint test passes; returns the new store
and whether a deletion happened.  `find?` models `existsSync` + `readFileSync`
on the single file named `sessionId + '.jsonl'`; `eraseP` removes exactly
that file (`unlinkSync`). -/
def cleanupSession (files : SessionStore) (sessionId : String) :
    SessionStore × Bool :=
  match List.find? (fun f => f.1 == sessionId) files with
  | some f =>
    if isMemarisSession f.2 then
      (List.eraseP (fun g => g.1 == sessionId) files, true)
    else (files, false)
  | none => (files, false)

/-- The mutable state of a `SessionCleanup` instance together with the
project directory it acts on: the tracked-session set `createdSessions` and
the directory's files. -/
structure CleanupState where
  createdSessions : List String
  files : SessionStore

/-- `SessionCleanup.cleanup()`: delete every tracked session that passes the
fingerprint test, then clear the tracked set (no-op when nothing is
tracked). -/
def cleanup (s : CleanupState) : CleanupState :=
  if s.createdSessions.isEmpty then s
  else
    { createdSessions := []
      files := s.createdSessions.foldl
        (fun fs sid => (cleanupSession fs sid).1) s.files }

/-- `SessionCleanup.cleanupExistingPollution()`: list the directory once,
then run `cleanupSession` on every file whose id is not currently tracked
(`!this.createdSessions.has(sessionId)`); the tracked set is not touched. -/
def cleanupExistingPollution (s : CleanupState) : CleanupState :=
  { createdSessions := s.createdSessions
    files := (s.files.map Prod.fst).foldl
      (fun fs sid =>
        if sid ∈ s.createdSessions then fs else (cleanupSession fs sid).1)
      s.files }

/-- A store holding one tracked non-memaris session and one untracked
non-memaris session. -/
def sampleCleanupState : CleanupState :=
  { createdSessions := ["t1"]
    files := [("t1", "hello user"), ("u1", "real work notes")] }

/-- A store holding one tracked session whose content does carry a prompt
fingerprint, next to an untracked user session. -/
def sampleTrackedPolluted : CleanupState :=
  { createdSessions := ["t1"]
    files := [("t1", "xx session-context yy"), ("u1", "real work notes")] }

section SanityChecks
example : estimateTokens msgSix = 6 := by decide
example : estimateTokens msgTwenty = 20 := by decide
example : estimateTokens msgEleven = 11 := by decide
example : (processBatches [msgSix, msgSix, msgSix] 10).map List.length = [1, 1] := by decide
example : (processBatches [msgTwenty] 10).map List.length = [1, 0] := by decide
example :
    (processBatches [msgSix, msgSix, msgSix, msgSix, msgSix, msgEleven] 10).map
      List.length = [1, 1, 1, 1, 1] := by decide
example :
    (mergeAnalysisResults [resultUnknownOS, resultLinuxOS]).map
      (fun r => r.userProfile.environment.os) = some "unknown" := by decide
example : firstNonUnknown ["unknown", "linux"] = "linux" := by decide
example :
    (normalizeAnalysisResult parsedAllMissing).userProfile.style.verbosity =
      "concise" := by decide
example :
    (normalizeAnalysisResult parsedUnknownLists).userProfile.boundaries = [] := by
  decide
example : simplePathDecode (pathToClaudeFolderName "/home/u/proj") = "/home/u/proj" := by
  decide
example : isExactPathMatch (pathToClaudeFolderName "/a-b") "/a-b" = false := by decide
example : isExactPathMatch "-home-u-proj" "/home/u/proj" = true := by decide
example : isExactPathMatch "-Users-u-go-src-big-brain" "/Users/u/go/src/big-brain" = true := by
  decide
example : isMemarisSession "real work notes" = false := by decide
example : isMemarisSession "xx CONFIDENCE SCORING CRITERIA yy" = true := by decide
example :
    (cleanup sampleCleanupState).files =
      [("t1", "hello user"), ("u1", "real work notes")] := by decide
example :
    (cleanupExistingPollution sampleCleanupState).files =
      [("t1", "hello user"), ("u1", "real work notes")] := by decide
end SanityChecks

/- ------------------------------------------------------------------ -/
/- Helper lemmas.                                                      -/
/- ------------------------------------------------------------------ -/

theorem mem_dedupFirstAux (s : String) :
    ∀ (l seen : List String), s ∈ dedupFirstAux seen l ↔ (s ∈ l ∧ s ∉ seen) := by
  intro l
  induction l with
  | nil => intro seen; simp [dedupFirstAux]
  | cons a t ih =>
    intro seen
    by_cases ha : a ∈ seen
    · simp only [dedupFirstAux, if_pos ha, ih]
      constructor
      · rintro ⟨hs, hns⟩; exact ⟨List.mem_cons_of_mem _ hs, hns⟩
      · rintro ⟨hs, hns⟩
        rcases List.mem_cons.mp hs with rfl | hs
        · exact absurd ha hns
        · exact ⟨hs, hns⟩
    · simp only [dedupFirstAux, if_neg ha, List.mem_cons, ih]
      constructor
      · rintro (rfl | ⟨hs, hns⟩)
        · exact ⟨Or.inl rfl, ha⟩
        · exact ⟨Or.inr hs, fun hsn => hns (Or.inr hsn)⟩
      · rintro ⟨rfl | hs, hns⟩
        · exact Or.inl rfl
        · by_cases hsa : s = a
          · exact Or.inl hsa
          · refine Or.inr ⟨hs, ?_⟩
            rintro (h | h)
            · exact hsa h
            · exact hns h

theorem mem_dedupFirst (s : String) (l : List String) :
    s ∈ dedupFirst l ↔ s ∈ l := by
  simp [dedupFirst, mem_dedupFirstAux]

/- ------------------------------------------------------------------ -/
/- Claims about the Result Merger.                                     -/
/- ------------------------------------------------------------------ -/

/-- C2 (counterexample): merging a first batch reporting `os = "unknown"`
with a second batch reporting `os = "linux"` yields `"unknown"`, whereas the
claimed rule ("first non-`"unknown"` value in batch order") demands
`"linux"`.  `mergeAnalysisResults` copies the scalar profile fields from
`results[0]` unconditionally. -/
theorem merge_os_not_firstNonUnknown :
    (mergeAnalysisResults [resultUnknownOS, resultLinuxOS]).map
      (fun r => r.userProfile.environment.os) = some "unknown" ∧
    firstNonUnknown ([resultUnknownOS, resultLinuxOS].map
      (fun r => r.userProfile.environment.os)) = "linux" ∧
    ("unknown" : String) ≠ "linux" := by
  refine ⟨by decide, by decide, by decide⟩

/-- C2 (amended): for a non-empty list of batch results, the merged scalar
profile fields (os, verbosity, techLevel, patience) are exactly the first
batch's values — even when the first batch reports `"unknown"` and a later
batch reports a concrete value. -/
theorem merge_scalars_eq_first_batch (r0 : AnalysisResult)
    (rest : List AnalysisResult) (r : AnalysisResult)
    (h : mergeAnalysisResults (r0 :: rest) = some r) :
    r.userProfile.environment.os = r0.userProfile.environment.os ∧
    r.userProfile.style.verbosity = r0.userProfile.style.verbosity ∧
    r.userProfile.style.techLevel = r0.userProfile.style.techLevel ∧
    r.userProfile.style.patience = r0.userProfile.style.patience := by
  cases rest with
  | nil =>
    have h' : r0 = r := Option.some.inj h
    subst h'
    exact ⟨rfl, rfl, rfl, rfl⟩
  | cons r1 rest' =>
    have h' : mergedResult (r0 :: r1 :: rest') r0 = r := Option.some.inj h
    subst h'
    exact ⟨rfl, rfl, rfl, rfl⟩

/-- C2 witness: the amended theorem applied to the concrete two-batch
counterexample input. -/
theorem merge_scalars_eq_first_batch_witness :
    (mergedResult [resultUnknownOS, resultLinuxOS] resultUnknownOS).userProfile.environment.os
        = resultUnknownOS.userProfile.environment.os ∧
    (mergedResult [resultUnknownOS, resultLinuxOS] resultUnknownOS).userProfile.style.verbosity
        = resultUnknownOS.userProfile.style.verbosity ∧
    (mergedResult [resultUnknownOS, resultLinuxOS] resultUnknownOS).userProfile.style.techLevel
        = resultUnknownOS.userProfile.style.techLevel ∧
    (mergedResult [resultUnknownOS, resultLinuxOS] resultUnknownOS).userProfile.style.patience
        = resultUnknownOS.userProfile.style.patience :=
  merge_scalars_eq_first_batch resultUnknownOS [resultLinuxOS] _ rfl

/-- C9: the deduplicated list profile fields and recommendations of
`merge([A,B])` and `merge([B,A])` contain the same strings — concatenation
plus first-seen deduplication is order-of-input independent as a set. -/
theorem merge_dedup_order_independent (A B : AnalysisResult) (s : String)
    (rAB rBA : AnalysisResult)
    (hAB : mergeAnalysisResults [A, B] = some rAB)
    (hBA : mergeAnalysisResults [B, A] = some rBA) :
    (s ∈ rAB.userProfile.environment.restrictions ↔
      s ∈ rBA.userProfile.environment.restrictions) ∧
    (s ∈ rAB.userProfile.environment.tools ↔
      s ∈ rBA.userProfile.environment.tools) ∧
    (s ∈ rAB.userProfile.boundaries ↔ s ∈ rBA.userProfile.boundaries) ∧
    (s ∈ rAB.userProfile.preferences ↔ s ∈ rBA.userProfile.preferences) ∧
    (s ∈ rAB.recommendations ↔ s ∈ rBA.recommendations) := by
  have hAB' : mergedResult [A, B] A = rAB := Option.some.inj hAB
  have hBA' : mergedResult [B, A] B = rBA := Option.some.inj hBA
  subst hAB'
  subst hBA'
  refine ⟨?_, ?_, ?_, ?_, ?_⟩ <;>
    · simp only [mergedResult, List.map_cons, List.map_nil, List.flatten,
        List.append_nil, mem_dedupFirst, List.mem_append]
      exact Or.comm

/-- C9 witness: the theorem applied at a concrete pair of results and a
concrete string. -/
theorem merge_dedup_order_independent_witness :
    ("linux" ∈ (mergedResult [resultUnknownOS, resultLinuxOS] resultUnknownOS).userProfile.environment.restrictions ↔
      "linux" ∈ (mergedResult [resultLinuxOS, resultUnknownOS] resultLinuxOS).userProfile.environment.restrictions) ∧
    ("linux" ∈ (mergedResult [resultUnknownOS, resultLinuxOS] resultUnknownOS).userProfile.environment.tools ↔
      "linux" ∈ (mergedResult [resultLinuxOS, resultUnknownOS] resultLinuxOS).userProfile.environment.tools) ∧
    ("linux" ∈ (mergedResult [resultUnknownOS, resultLinuxOS] resultUnknownOS).userProfile.boundaries ↔
      "linux" ∈ (mergedResult [resultLinuxOS, resultUnknownOS] resultLinuxOS).userProfile.boundaries) ∧
    ("linux" ∈ (mergedResult [resultUnknownOS, resultLinuxOS] resultUnknownOS).userProfile.preferences ↔
      "linux" ∈ (mergedResult [resultLinuxOS, resultUnknownOS] resultLinuxOS).userProfile.preferences) ∧
    ("linux" ∈ (mergedResult [resultUnknownOS, resultLinuxOS] resultUnknownOS).recommendations ↔
      "linux" ∈ (mergedResult [resultLinuxOS, resultUnknownOS] resultLinuxOS).recommendations) :=
  merge_dedup_order_independent resultUnknownOS resultLinuxOS "linux" _ _ rfl rfl

/- ------------------------------------------------------------------ -/
/- Claims about response-field defaulting.                             -/
/- ------------------------------------------------------------------ -/

/-- C5 (counterexample): on a parsed response with every profile field
missing, `analyzeConversation` defaults the style fields to `"concise"`,
`"intermediate"` and `"medium"` — not to `"unknown"` as claimed (only `os`
defaults to `"unknown"`). -/
theorem analyzeConversation_style_defaults_not_unknown :
    verbosityOf parsedAllMissing = none ∧
    techLevelOf parsedAllMissing = none ∧
    patienceOf parsedAllMissing = none ∧
    (normalizeAnalysisResult parsedAllMissing).userProfile.style.verbosity = "concise" ∧
    (normalizeAnalysisResult parsedAllMissing).userProfile.style.techLevel = "intermediate" ∧
    (normalizeAnalysisResult parsedAllMissing).userProfile.style.patience = "medium" ∧
    ("concise" : String) ≠ "unknown" ∧
    ("intermediate" : String) ≠ "unknown" ∧
    ("medium" : String) ≠ "unknown" := by
  refine ⟨rfl, rfl, rfl, rfl, rfl, rfl, by decide, by decide, by decide⟩

/-- C5 (amended): a missing `os` defaults to `"unknown"`, while missing
`verbosity`/`techLevel`/`patience` default to `"concise"`, `"intermediate"`
and `"medium"` respectively; every missing list field (restrictions, tools,
boundaries, preferences, recommendations) defaults to the empty list, and the
literal string `"unknown"` supplied for a list field is mapped to the empty
list rather than raising an error. -/
theorem analyzeConversation_field_defaults (p : ParsedResult) :
    (osOf p = none →
      (normalizeAnalysisResult p).userProfile.environment.os = "unknown") ∧
    (verbosityOf p = none →
      (normalizeAnalysisResult p).userProfile.style.verbosity = "concise") ∧
    (techLevelOf p = none →
      (normalizeAnalysisResult p).userProfile.style.techLevel = "intermediate") ∧
    (patienceOf p = none →
      (normalizeAnalysisResult p).userProfile.style.patience = "medium") ∧
    (restrictionsOf p = JVal.jabsent →
      (normalizeAnalysisResult p).userProfile.environment.restrictions = []) ∧
    (restrictionsOf p = JVal.jstr "unknown" →
      (normalizeAnalysisResult p).userProfile.environment.restrictions = []) ∧
    (toolsOf p = JVal.jabsent →
      (normalizeAnalysisResult p).userProfile.environment.tools = []) ∧
    (toolsOf p = JVal.jstr "unknown" →
      (normalizeAnalysisResult p).userProfile.environment.tools = []) ∧
    (boundariesOf p = JVal.jabsent →
      (normalizeAnalysisResult p).userProfile.boundaries = []) ∧
    (boundariesOf p = JVal.jstr "unknown" →
      (normalizeAnalysisResult p).userProfile.boundaries = []) ∧
    (preferencesOf p = JVal.jabsent →
      (normalizeAnalysisResult p).userProfile.preferences = []) ∧
    (preferencesOf p = JVal.jstr "unknown" →
      (normalizeAnalysisResult p).userProfile.preferences = []) ∧
    (p.recommendations = JVal.jabsent →
      (normalizeAnalysisResult p).recommendations = []) ∧
    (p.recommendations = JVal.jstr "unknown" →
      (normalizeAnalysisResult p).recommendations = []) := by
  refine ⟨?_, ?_, ?_, ?_, ?_, ?_, ?_, ?_, ?_, ?_, ?_, ?_, ?_, ?_⟩ <;>
    · intro h
      simp [normalizeAnalysisResult, strOrDefault, arrOrEmpty, arrOrSingleton, h]

/-- C5 witness: the amended theorem evaluated on a response with all fields
missing and on a response whose list fields carry the literal `"unknown"`. -/
theorem analyzeConversation_field_defaults_witness :
    (normalizeAnalysisResult parsedAllMissing).userProfile.environment.os = "unknown" ∧
    (normalizeAnalysisResult parsedAllMissing).userProfile.style.verbosity = "concise" ∧
    (normalizeAnalysisResult parsedAllMissing).userProfile.style.techLevel = "intermediate" ∧
    (normalizeAnalysisResult parsedAllMissing).userProfile.style.patience = "medium" ∧
    (normalizeAnalysisResult parsedAllMissing).userProfile.environment.restrictions = [] ∧
    (normalizeAnalysisResult parsedAllMissing).userProfile.environment.tools = [] ∧
    (normalizeAnalysisResult parsedAllMissing).userProfile.boundaries = [] ∧
    (normalizeAnalysisResult parsedAllMissing).userProfile.preferences = [] ∧
    (normalizeAnalysisResult parsedAllMissing).recommendations = [] ∧
    (normalizeAnalysisResult parsedUnknownLists).userProfile.environment.restrictions = [] ∧
    (normalizeAnalysisResult parsedUnknownLists).userProfile.environment.tools = [] ∧
    (normalizeAnalysisResult parsedUnknownLists).userProfile.boundaries = [] ∧
    (normalizeAnalysisResult parsedUnknownLists).userProfile.preferences = [] ∧
    (normalizeAnalysisResult parsedUnknownLists).recommendations = [] := by
  obtain ⟨a1, a2, a3, a4, a5, -, a7, -, a9, -, a11, -, a13, -⟩ :=
    analyzeConversation_field_defaults parsedAllMissing
  obtain ⟨-, -, -, -, -, b6, -, b8, -, b10, -, b12, -, b14⟩ :=
    analyzeConversation_field_defaults parsedUnknownLists
  exact ⟨a1 rfl, a2 rfl, a3 rfl, a4 rfl, a5 rfl, a7 rfl, a9 rfl, a11 rfl,
    a13 rfl, b6 rfl, b8 rfl, b10 rfl, b12 rfl, b14 rfl⟩

/- ------------------------------------------------------------------ -/
/- Claims about the Batch Planner.                                     -/
/- ------------------------------------------------------------------ -/

/-- C1 (code-bug evaluation): `processBatches` runs exactly
`ceil(totalTokens / batchSize)` collection rounds, which diverges from greedy
packing.  With token estimates `[6, 6, 6]` and ceiling 10 it emits two
singleton batches and silently drops the third message; with a single
20-token message and ceiling 10 it emits the message and then an empty
second batch.  Both outcomes contradict "only non-empty batches whose
concatenation reproduces the input". -/
theorem processBatches_drops_and_emits_empty :
    ([msgSix, msgSix, msgSix].map estimateTokens = [6, 6, 6]) ∧
    ((processBatches [msgSix, msgSix, msgSix] 10).map (List.map estimateTokens)
      = [[6], [6]]) ∧
    ((processBatches [msgSix, msgSix, msgSix] 10).flatten.length = 2) ∧
    (estimateTokens msgTwenty = 20) ∧
    ((processBatches [msgTwenty] 10) = [[msgTwenty], []]) := by
  refine ⟨by decide, by decide, by decide, by decide, by decide⟩

/-- C4 (counterexample): with ceiling 10 and token estimates
`[6, 6, 6, 6, 6, 11]`, the planner's five rounds emit five singleton batches
of small messages and the oversized final message is placed in no batch at
all — it is not "placed alone in a batch of its own". -/
theorem oversized_message_left_unbatched :
    10 < estimateTokens msgEleven ∧
    processBatches [msgSix, msgSix, msgSix, msgSix, msgSix, msgEleven] 10
      = [[msgSix], [msgSix], [msgSix], [msgSix], [msgSix]] ∧
    msgEleven ∉
      (processBatches [msgSix, msgSix, msgSix, msgSix, msgSix, msgEleven] 10).flatten := by
  refine ⟨by decide, by decide, by decide⟩

theorem collectBatchAux_stop (batchSize : Nat) (rest batch : List ClaudeMessage)
    (count : Nat) (h : batchSize ≤ count) :
    collectBatchAux batchSize rest batch count = (batch, count, rest) := by
  cases rest with
  | nil => rfl
  | cons m r => simp [collectBatchAux, Nat.not_lt.mpr h]

theorem collectBatchAux_mem_of_nonempty (batchSize : Nat) :
    ∀ (rest batch : List ClaudeMessage) (count : Nat), batch ≠ [] →
      ∀ m ∈ (collectBatchAux batchSize rest batch count).1,
        m ∈ batch ∨ estimateTokens m ≤ batchSize := by
  intro rest
  induction rest with
  | nil => intro batch count _ m hm; exact Or.inl hm
  | cons msg r ih =>
    intro batch count hb m hm
    by_cases h1 : count < batchSize
    · by_cases h2 : batchSize < count + estimateTokens msg ∧ 0 < batch.length
      · rw [show collectBatchAux batchSize (msg :: r) batch count
            = (batch, count, msg :: r) by simp [collectBatchAux, h1, h2]] at hm
        exact Or.inl hm
      · have hlen : 0 < batch.length := List.length_pos.mpr hb
        have hms : estimateTokens msg ≤ batchSize := by
          have hA : ¬ batchSize < count + estimateTokens msg :=
            fun hA => h2 ⟨hA, hlen⟩
          omega
        have hm' : m ∈ (collectBatchAux batchSize r (batch ++ [msg])
            (count + estimateTokens msg)).1 := by
          rw [show collectBatchAux batchSize (msg :: r) batch count
              = collectBatchAux batchSize r (batch ++ [msg])
                  (count + estimateTokens msg) by
            simp [collectBatchAux, h1, h2]] at hm
          exact hm
        rcases ih (batch ++ [msg]) (count + estimateTokens msg) (by simp) m hm'
          with h | h
        · rcases List.mem_append.mp h with h | h
          · exact Or.inl h
          · rw [List.mem_singleton.mp h]
            exact Or.inr hms
        · exact Or.inr h
    · rw [show collectBatchAux batchSize (msg :: r) batch count
          = (batch, count, msg :: r) by simp [collectBatchAux, h1]] at hm
      exact Or.inl hm

theorem collectBatch_oversized (batchSize : Nat) (h0 : 0 < batchSize)
    (msgs : List ClaudeMessage) (m : ClaudeMessage)
    (hm : m ∈ (collectBatch batchSize msgs).1)
    (hover : batchSize < estimateTokens m) :
    (collectBatch batchSize msgs).1 = [m] := by
  cases msgs with
  | nil => simp [collectBatch, collectBatchAux] at hm
  | cons msg rest =>
    have hstep : collectBatch batchSize (msg :: rest)
        = collectBatchAux batchSize rest [msg] (estimateTokens msg) := by
      simp [collectBatch, collectBatchAux, h0]
    rw [hstep] at hm ⊢
    rcases collectBatchAux_mem_of_nonempty batchSize rest [msg]
        (estimateTokens msg) (by simp) m hm with h | h
    · rw [List.mem_singleton.mp h] at hover ⊢
      rw [collectBatchAux_stop batchSize rest [msg] (estimateTokens msg)
        (le_of_lt hover)]
    · omega

theorem runBatches_oversized (batchSize : Nat) (h0 : 0 < batchSize) :
    ∀ (n : Nat) (msgs b : List ClaudeMessage) (m : ClaudeMessage),
      b ∈ runBatches batchSize n msgs → m ∈ b →
      batchSize < estimateTokens m → b = [m] := by
  intro n
  induction n with
  | zero => intro msgs b m hb; simp [runBatches] at hb
  | succ k ih =>
    intro msgs b m hb hm hover
    rcases List.mem_cons.mp hb with hb | hb
    · subst hb
      exact collectBatch_oversized batchSize h0 msgs m hm hover
    · exact ih _ b m hb hm hover

/-- C4 (amended): for a positive ceiling, every batch emitted by
`processBatches` that contains a message whose estimated cost exceeds the
ceiling contains no other message — an oversized message is only ever
force-included into an empty batch, which then closes immediately.  (Because
of the batch-count bug exhibited by the counterexample, such a message can
also be dropped and appear in no batch at all.) -/
theorem oversized_alone_in_batch (messages : List ClaudeMessage)
    (batchSize : Nat) (h0 : 0 < batchSize) (b : List ClaudeMessage)
    (hb : b ∈ processBatches messages batchSize) (m : ClaudeMessage)
    (hm : m ∈ b) (hover : batchSize < estimateTokens m) : b = [m] :=
  runBatches_oversized batchSize h0 (batchesNeeded messages batchSize)
    messages b m hb hm hover

/-- C4 witness: the amended theorem applied to a concrete planner run that
force-includes a 20-token message under a 10-token ceiling. -/
theorem oversized_alone_in_batch_witness :
    0 < 10 ∧ [msgTwenty] ∈ processBatches [msgTwenty] 10 ∧
    msgTwenty ∈ [msgTwenty] ∧ 10 < estimateTokens msgTwenty ∧
    ([msgTwenty] : List ClaudeMessage) = [msgTwenty] :=
  ⟨by decide, by decide, by decide, by decide,
    oversized_alone_in_batch [msgTwenty] 10 (by decide) [msgTwenty]
      (by decide) msgTwenty (by decide) (by decide)⟩

/- ------------------------------------------------------------------ -/
/- Claims about the Self-Pollution Guard.                              -/
/- ------------------------------------------------------------------ -/

theorem mem_eraseP_of_pred_false {α : Type} (p : α → Bool) :
    ∀ (l : List α) (a : α), a ∈ l → p a = false → a ∈ l.eraseP p := by
  intro l
  induction l with
  | nil => intro a h; cases h
  | cons b t ih =>
    intro a ha hpa
    by_cases hpb : p b
    · rw [List.eraseP_cons_of_pos hpb]
      rcases List.mem_cons.mp ha with rfl | ha
      · rw [hpa] at hpb; cases hpb
      · exact ha
    · rw [List.eraseP_cons_of_neg hpb]
      rcases List.mem_cons.mp ha with rfl | ha
      · exact List.mem_cons_self _ _
      · exact List.mem_cons_of_mem _ (ih a ha hpa)

theorem keyNodup_eq :
    ∀ (l : SessionStore), (l.map Prod.fst).Nodup →
      ∀ a ∈ l, ∀ b ∈ l, a.1 = b.1 → a = b := by
  intro l
  induction l with
  | nil => intro _ a ha; cases ha
  | cons x t ih =>
    intro hnd a ha b hb hab
    have hx : x.1 ∉ t.map Prod.fst := (List.nodup_cons.mp hnd).1
    have ht : (t.map Prod.fst).Nodup := (List.nodup_cons.mp hnd).2
    rcases List.mem_cons.mp ha with ha' | ha'
    · rcases List.mem_cons.mp hb with hb' | hb'
      · rw [ha', hb']
      · exact absurd (List.mem_map.mpr ⟨b, hb', by rw [← hab, ha']⟩) hx
    · rcases List.mem_cons.mp hb with hb' | hb'
      · exact absurd (List.mem_map.mpr ⟨a, ha', by rw [hab, hb']⟩) hx
      · exact ih ht a ha' b hb' hab

theorem cleanupSession_preserves (files : SessionStore) (sid : String)
    (hnd : (files.map Prod.fst).Nodup) (id content : String)
    (hmem : (id, content) ∈ files) (hm : isMemarisSession content = false) :
    (id, content) ∈ (cleanupSession files sid).1 ∧
    (((cleanupSession files sid).1.map Prod.fst).Nodup) := by
  unfold cleanupSession
  cases hfind : List.find? (fun f => f.1 == sid) files with
  | none => exact ⟨hmem, hnd⟩
  | some f =>
    by_cases hmf : isMemarisSession f.2
    · simp only [hmf, if_pos]
      constructor
      · by_cases hid : id = sid
        · have hf_mem := List.mem_of_find?_eq_some hfind
          have hf1 : f.1 = sid := by simpa using List.find?_some hfind
          have hfe : (id, content) = f :=
            keyNodup_eq files hnd _ hmem _ hf_mem (by simp [hid, hf1])
          rw [← hfe] at hmf
          simp [hm] at hmf
        · exact mem_eraseP_of_pred_false _ files _ hmem (by simp [hid])
      · exact hnd.sublist ((List.eraseP_sublist files).map Prod.fst)
    · simp only [hmf, if_neg, Bool.false_eq_true, not_false_iff]
      exact ⟨hmem, hnd⟩

theorem foldl_cleanupSession_preserves (ids : List String) :
    ∀ (files : SessionStore), (files.map Prod.fst).Nodup →
      ∀ id content, (id, content) ∈ files → isMemarisSession content = false →
        (id, content) ∈ ids.foldl (fun fs sid => (cleanupSession fs sid).1) files := by
  induction ids with
  | nil => intro files _ id c hm _; exact hm
  | cons sid rest ih =>
    intro files hnd id c hm hf
    have h1 := cleanupSession_preserves files sid hnd id c hm hf
    simpa [List.foldl_cons] using ih _ h1.2 id c h1.1 hf

theorem foldl_guardedCleanup_preserves (tracked : List String)
    (ids : List String) :
    ∀ (files : SessionStore), (files.map Prod.fst).Nodup →
      ∀ id content, (id, content) ∈ files → isMemarisSession content = false →
        (id, content) ∈ ids.foldl
          (fun fs sid =>
            if sid ∈ tracked then fs else (cleanupSession fs sid).1) files := by
  induction ids with
  | nil => intro files _ id c hm _; exact hm
  | cons sid rest ih =>
    intro files hnd id c hm hf
    by_cases hs : sid ∈ tracked
    · simpa [List.foldl_cons, hs] using ih files hnd id c hm hf
    · have h1 := cleanupSession_preserves files sid hnd id c hm hf
      simpa [List.foldl_cons, hs] using ih _ h1.2 id c h1.1 hf

/-- C3: neither `cleanup` (post-run, tracked ids) nor
`cleanupExistingPollution` (pre-run scan) ever deletes a session file whose
content matches no analysis-prompt fingerprint: every such file still exists
afterwards.  Timing only nominates candidates; `cleanupSession` re-checks the
fingerprint on the file content before every `unlinkSync`. -/
theorem cleanup_never_deletes_without_fingerprint (s : CleanupState)
    (hnd : (s.files.map Prod.fst).Nodup) (id content : String)
    (hmem : (id, content) ∈ s.files)
    (hm : isMemarisSession content = false) :
    (id, content) ∈ (cleanup s).files ∧
    (id, content) ∈ (cleanupExistingPollution s).files := by
  constructor
  · unfold cleanup
    by_cases he : s.createdSessions.isEmpty
    · simpa [he] using hmem
    · simpa [he] using
        foldl_cleanupSession_preserves s.createdSessions s.files hnd id content
          hmem hm
  · exact foldl_guardedCleanup_preserves s.createdSessions
      (s.files.map Prod.fst) s.files hnd id content hmem hm

/-- C3 witness: in a store with one tracked and one untracked session, both
with fingerprint-free content, the untracked user session survives both
cleanup passes. -/
theorem cleanup_never_deletes_without_fingerprint_witness :
    ("u1", "real work notes") ∈ (cleanup sampleCleanupState).files ∧
    ("u1", "real work notes") ∈ (cleanupExistingPollution sampleCleanupState).files :=
  cleanup_never_deletes_without_fingerprint sampleCleanupState (by decide)
    "u1" "real work notes" (by decide) (by decide)

theorem cleanupSession_ne_key (files : SessionStore) (sid id c : String)
    (hne : id ≠ sid) (hm : (id, c) ∈ files) :
    (id, c) ∈ (cleanupSession files sid).1 := by
  unfold cleanupSession
  cases hfind : List.find? (fun f => f.1 == sid) files with
  | none => exact hm
  | some f =>
    by_cases hmf : isMemarisSession f.2
    · simp only [hmf, if_pos]
      exact mem_eraseP_of_pred_false _ files _ hm (by simp [hne])
    · simp only [hmf, if_neg, Bool.false_eq_true, not_false_iff]
      exact hm

theorem guardedFold_preserves_tracked (tracked : List String)
    (ids : List String) :
    ∀ (files : SessionStore) (id c : String), id ∈ tracked →
      (id, c) ∈ files →
      (id, c) ∈ ids.foldl
        (fun fs sid =>
          if sid ∈ tracked then fs else (cleanupSession fs sid).1) files := by
  induction ids with
  | nil => intro files id c _ hm; exact hm
  | cons sid rest ih =>
    intro files id c hid hm
    by_cases hs : sid ∈ tracked
    · simpa [List.foldl_cons, hs] using ih files id c hid hm
    · have hne : id ≠ sid := fun h => hs (h ▸ hid)
      simpa [List.foldl_cons, hs] using
        ih _ id c hid (cleanupSession_ne_key files sid id c hne hm)

/-- C10: the pre-run pollution scan skips every tracked session id — a file
whose id is in the tracked set survives `cleanupExistingPollution` no matter
its content — and the scan leaves the tracked set itself unchanged. -/
theorem pollution_scan_skips_tracked (s : CleanupState) (id content : String)
    (hid : id ∈ s.createdSessions) (hmem : (id, content) ∈ s.files) :
    (id, content) ∈ (cleanupExistingPollution s).files ∧
    (cleanupExistingPollution s).createdSessions = s.createdSessions :=
  ⟨guardedFold_preserves_tracked s.createdSessions (s.files.map Prod.fst)
      s.files id content hid hmem, rfl⟩

/-- C10 witness: a tracked session whose content even carries a fingerprint
is still untouched by the pre-run scan. -/
theorem pollution_scan_skips_tracked_witness :
    ("t1", "xx session-context yy") ∈
      (cleanupExistingPollution sampleTrackedPolluted).files ∧
    (cleanupExistingPollution sampleTrackedPolluted).createdSessions =
      sampleTrackedPolluted.createdSessions :=
  pollution_scan_skips_tracked sampleTrackedPolluted "t1"
    "xx session-context yy" (by decide) (by decide)

/- ------------------------------------------------------------------ -/
/- Claims about the Transcript Parser.                                 -/
/- ------------------------------------------------------------------ -/

/-- C8: `parseSessionFile` returns exactly the successfully parsed messages
of the non-blank lines, sorted ascending by timestamp: the output is sorted
under the timestamp order, it is a permutation of the per-line independent
`filterMap` of the parser over the lines, and removing a line whose parse
fails never changes the collected messages — a malformed line is skipped,
never fatal. -/
theorem parseSessionFile_sorted_and_lenient {M : Type}
    (parseJson : String → Option M) (timeOf : M → Int) (content : String) :
    List.Sorted (timeLE timeOf) (parseSessionFile parseJson timeOf content) ∧
    (parseSessionFile parseJson timeOf content).Perm
      ((content.trim.splitOn "\n").filterMap
        (fun line => if line.trim.isEmpty then none else parseJson line)) ∧
    (∀ (pre post : List String) (badLine : String), parseJson badLine = none →
      collectParsedLines parseJson (pre ++ badLine :: post) =
        collectParsedLines parseJson (pre ++ post)) := by
  refine ⟨List.sorted_insertionSort (timeLE timeOf) _,
    List.perm_insertionSort (timeLE timeOf) _, ?_⟩
  intro pre post badLine h
  by_cases hb : badLine.trim.isEmpty <;>
    simp [collectParsedLines, List.filterMap_append, List.filterMap_cons, hb, h]

/-- C8 witness: the skip-a-malformed-line clause of the theorem applied to a
concrete parser and line list. -/
theorem parseSessionFile_sorted_and_lenient_witness :
    collectParsedLines (fun _ : String => (none : Option Nat))
        (["7"] ++ "x" :: ["3"]) =
      collectParsedLines (fun _ : String => (none : Option Nat)) (["7"] ++ ["3"]) :=
  (parseSessionFile_sorted_and_lenient (fun _ : String => (none : Option Nat))
    (fun _ => 0) "").2.2 ["7"] ["3"] "x" rfl

/- ------------------------------------------------------------------ -/
/- Claims about the Path Codec.                                        -/
/- ------------------------------------------------------------------ -/

theorem dashToSlash_slashToDash (c : Char) (h : c ≠ '-') :
    dashToSlash (slashToDash c) = c := by
  by_cases hc : c = '/'
  · simp [slashToDash, dashToSlash, hc]
  · simp [slashToDash, dashToSlash, hc, h]

/-- C6: for an absolute path (leading `'/'`) in which no segment contains a
hyphen (no `'-'` anywhere), the naive all-hyphens-are-separators decode of
`pathToClaudeFolderName` recovers the path exactly:
`decode(encode(P)) = P`. -/
theorem naive_decode_inverts_encode (p : String)
    (habs : p.data.head? = some '/') (hnod : '-' ∉ p.data) :
    simplePathDecode (pathToClaudeFolderName p) = p := by
  cases p with
  | mk data =>
    cases data with
    | nil => simp at habs
    | cons c rest =>
      have hc : c = '/' := by simpa using habs
      subst hc
      show String.mk ('/' :: (rest.map slashToDash).map dashToSlash)
          = String.mk ('/' :: rest)
      have hmap : (rest.map slashToDash).map dashToSlash = rest := by
        rw [List.map_map]
        have : ∀ x ∈ rest, (dashToSlash ∘ slashToDash) x = id x := by
          intro x hx
          exact dashToSlash_slashToDash x
            (fun hxd => hnod (List.mem_cons_of_mem _ (hxd ▸ hx)))
        rw [List.map_congr_left this, List.map_id]
      rw [hmap]

/-- C6 witness: the roundtrip theorem at the concrete hyphen-free path
`"/home/u/proj"`. -/
theorem naive_decode_inverts_encode_witness :
    ("/home/u/proj" : String).data.head? = some '/' ∧
    '-' ∉ ("/home/u/proj" : String).data ∧
    simplePathDecode (pathToClaudeFolderName "/home/u/proj") = "/home/u/proj" :=
  ⟨rfl, by decide, naive_decode_inverts_encode "/home/u/proj" rfl (by decide)⟩


theorem map_slashToDash_id (s : List Char) (h : '/' ∉ s) :
    s.map slashToDash = s := by
  have hall : ∀ x ∈ s, slashToDash x = id x := by
    intro x hx
    have hne : x ≠ '/' := fun hxe => h (show '/' ∈ s from hxe ▸ hx)
    simp only [slashToDash, id, if_neg hne]
  rw [List.map_congr_left hall, List.map_id]

theorem joinSep_cons_cons (sep : Char) (x z : List Char)
    (t : List (List Char)) :
    joinSep sep (x :: z :: t) = x ++ sep :: joinSep sep (z :: t) := rfl

theorem joinSep_append_single (sep : Char) :
    ∀ (xs : List (List Char)) (y : List Char), xs ≠ [] →
      joinSep sep (xs ++ [y]) = joinSep sep xs ++ sep :: y := by
  intro xs
  induction xs with
  | nil => intro y h; cases h rfl
  | cons x t ih =>
    intro y _
    cases t with
    | nil => simp [joinSep]
    | cons z zs =>
      rw [List.cons_append, List.cons_append, joinSep_cons_cons]
      rw [show (z :: (zs ++ [y])) = (z :: zs) ++ [y] from (List.cons_append z zs [y]).symm]
      rw [ih y (by simp), joinSep_cons_cons]
      simp

theorem map_joinSep_slash :
    ∀ (xs : List (List Char)), (∀ s ∈ xs, '/' ∉ s) →
      (joinSep '/' xs).map slashToDash = joinSep '-' xs := by
  intro xs
  induction xs with
  | nil => intro _; rfl
  | cons x t ih =>
    intro h
    cases t with
    | nil =>
      show (joinSep '/' [x]).map slashToDash = joinSep '-' [x]
      exact map_slashToDash_id x (h x (by simp))
    | cons z zs =>
      rw [joinSep_cons_cons, joinSep_cons_cons, List.map_append, List.map_cons]
      rw [map_slashToDash_id x (h x (by simp)),
        ih (fun s hs => h s (List.mem_cons_of_mem _ hs))]
      simp [slashToDash]

theorem splitDash_no_dash :
    ∀ (s : List Char), '-' ∉ s → splitDash s = [s] := by
  intro s
  induction s with
  | nil => intro _; rfl
  | cons c t ih =>
    intro h
    have hc : ¬ c = '-' := fun hc => h (by simp [hc])
    rw [show splitDash (c :: t) =
        (match splitDash t with
          | [] => [[c]]
          | s :: ss => (c :: s) :: ss) by simp [splitDash, hc]]
    rw [ih (fun hm => h (List.mem_cons_of_mem _ hm))]

theorem splitDash_chunk (s : List Char) (h : '-' ∉ s) (rest : List Char) :
    splitDash (s ++ '-' :: rest) = s :: splitDash rest := by
  induction s with
  | nil => simp [splitDash]
  | cons c t ih =>
    have hc : ¬ c = '-' := fun hc => h (by simp [hc])
    rw [List.cons_append,
      show splitDash (c :: (t ++ '-' :: rest)) =
        (match splitDash (t ++ '-' :: rest) with
          | [] => [[c]]
          | s :: ss => (c :: s) :: ss) by simp [splitDash, hc]]
    rw [ih (fun hm => h (List.mem_cons_of_mem _ hm))]

theorem splitDash_joinSep_chunks :
    ∀ (xs : List (List Char)), xs ≠ [] → (∀ s ∈ xs, '-' ∉ s) →
      ∀ (tail : List Char),
        splitDash (joinSep '-' xs ++ '-' :: tail) = xs ++ splitDash tail := by
  intro xs
  induction xs with
  | nil => intro h; cases h rfl
  | cons x t ih =>
    intro _ hno tail
    cases t with
    | nil =>
      show splitDash (joinSep '-' [x] ++ '-' :: tail) = [x] ++ splitDash tail
      rw [show joinSep '-' [x] = x from rfl]
      rw [splitDash_chunk x (hno x (by simp)) tail]
      rfl
    | cons z zs =>
      rw [joinSep_cons_cons, List.cons_append, List.append_assoc, List.cons_append]
      rw [splitDash_chunk x (hno x (by simp))]
      rw [ih (by simp) (fun s hs => hno s (List.mem_cons_of_mem _ hs)) tail]

theorem stripTrailingSlash_append_no_slash (x l : List Char)
    (hne : l ≠ []) (h : '/' ∉ l) :
    stripTrailingSlash (x ++ l) = x ++ l := by
  unfold stripTrailingSlash
  rw [if_neg]
  intro hlast
  rw [List.getLast?_append_of_ne_nil x hne] at hlast
  exact h (List.mem_of_getLast?_eq_some hlast)

theorem isExactPathMatch_of_method2 (dir path : String)
    (hhead : dir.data.head? = some '-')
    (h2 : 2 ≤ (splitDash (dir.data.drop 1)).length)
    (heq : reconstructK 2 (splitDash (dir.data.drop 1)) =
      stripTrailingSlash path.data) :
    isExactPathMatch dir path = true := by
  simp only [isExactPathMatch]
  rw [if_pos hhead]
  by_cases h1 : ('/' :: (dir.data.drop 1).map dashToSlash) =
      stripTrailingSlash path.data
  · rw [if_pos h1]
  · rw [if_neg h1, if_pos ⟨h2, heq⟩]

/-- C7 (amended): for an absolute path built from at least one hyphen-free,
slash-free leading segment followed by a final segment containing exactly one
hyphen (`a ++ '-' :: b` with `a`, `b` hyphen-free), the last-2-segments
decode strategy applied to the encoded directory name reconstructs the
normalized path exactly, and `isExactPathMatch` therefore accepts the
encoding against the path.  (A path with no leading segment is excluded: the
counterexample shows the strategy then produces a doubled leading separator
and the match is rejected.) -/
theorem last2_strategy_reconstructs (pre : List (List Char)) (a b : List Char)
    (hpre : pre ≠ [])
    (hpreDash : ∀ s ∈ pre, '-' ∉ s) (hpreSlash : ∀ s ∈ pre, '/' ∉ s)
    (haDash : '-' ∉ a) (haSlash : '/' ∉ a)
    (hbDash : '-' ∉ b) (hbSlash : '/' ∉ b) :
    reconstructK 2 (splitDash ((pathToClaudeFolderName
        (String.mk ('/' :: joinSep '/' (pre ++ [a ++ '-' :: b])))).data.drop 1)) =
      stripTrailingSlash
        (String.mk ('/' :: joinSep '/' (pre ++ [a ++ '-' :: b]))).data ∧
    isExactPathMatch
      (pathToClaudeFolderName
        (String.mk ('/' :: joinSep '/' (pre ++ [a ++ '-' :: b]))))
      (String.mk ('/' :: joinSep '/' (pre ++ [a ++ '-' :: b]))) = true := by
  have hlast_ne : a ++ '-' :: b ≠ [] := by simp
  have hlast_slash : '/' ∉ a ++ '-' :: b := by
    intro hm
    rcases List.mem_append.mp hm with h | h
    · exact haSlash h
    · rcases List.mem_cons.mp h with h | h
      · simp at h
      · exact hbSlash h
  have hsegs : splitDash ((pathToClaudeFolderName
      (String.mk ('/' :: joinSep '/' (pre ++ [a ++ '-' :: b])))).data.drop 1) =
      pre ++ [a, b] := by
    show splitDash ((joinSep '/' (pre ++ [a ++ '-' :: b])).map slashToDash)
        = pre ++ [a, b]
    rw [map_joinSep_slash (pre ++ [a ++ '-' :: b]) (by
      intro s hs
      rcases List.mem_append.mp hs with h | h
      · exact hpreSlash s h
      · rw [List.mem_singleton.mp h]; exact hlast_slash)]
    rw [joinSep_append_single '-' pre (a ++ '-' :: b) hpre]
    rw [show joinSep '-' pre ++ '-' :: (a ++ '-' :: b)
        = (joinSep '-' pre ++ '-' :: a) ++ '-' :: b by simp]
    rw [show joinSep '-' pre ++ '-' :: a = joinSep '-' pre ++ '-' :: a ++ [] by simp]
    rw [show ((joinSep '-' pre ++ '-' :: a ++ []) ++ '-' :: b)
        = joinSep '-' pre ++ '-' :: (a ++ '-' :: b) by simp]
    rw [splitDash_joinSep_chunks pre hpre hpreDash (a ++ '-' :: b)]
    rw [splitDash_chunk a haDash b, splitDash_no_dash b hbDash]
  have hPdata : (String.mk ('/' :: joinSep '/' (pre ++ [a ++ '-' :: b]))).data
      = '/' :: (joinSep '/' pre ++ '/' :: (a ++ '-' :: b)) := by
    show '/' :: joinSep '/' (pre ++ [a ++ '-' :: b])
        = '/' :: (joinSep '/' pre ++ '/' :: (a ++ '-' :: b))
    rw [joinSep_append_single '/' pre (a ++ '-' :: b) hpre]
  have hstrip : stripTrailingSlash
      (String.mk ('/' :: joinSep '/' (pre ++ [a ++ '-' :: b]))).data
      = '/' :: (joinSep '/' pre ++ '/' :: (a ++ '-' :: b)) := by
    rw [hPdata]
    rw [show '/' :: (joinSep '/' pre ++ '/' :: (a ++ '-' :: b))
        = ('/' :: joinSep '/' pre ++ ['/']) ++ (a ++ '-' :: b) by simp]
    rw [stripTrailingSlash_append_no_slash _ _ hlast_ne hlast_slash]
  have hrecon : reconstructK 2 (pre ++ [a, b])
      = '/' :: (joinSep '/' pre ++ '/' :: (a ++ '-' :: b)) := by
    simp only [reconstructK]
    have hl : (pre ++ [a, b]).length - 2 = pre.length := by simp
    rw [hl, List.take_left, List.drop_left]
    rfl
  have hmain : reconstructK 2 (splitDash ((pathToClaudeFolderName
      (String.mk ('/' :: joinSep '/' (pre ++ [a ++ '-' :: b])))).data.drop 1)) =
      stripTrailingSlash
        (String.mk ('/' :: joinSep '/' (pre ++ [a ++ '-' :: b]))).data := by
    rw [hsegs, hrecon, hstrip]
  refine ⟨hmain, ?_⟩
  apply isExactPathMatch_of_method2
  · rfl
  · rw [hsegs]; simp
  · exact hmain

/-- C7 (counterexample): the absolute path `"/a-b"` has a final segment with
exactly one hyphen, yet the last-2-segments decode of its encoding
`"-a-b"` yields `"//a-b"`, not `"/a-b"`, and `isExactPathMatch` rejects the
pair — the claim fails for paths whose hyphenated segment is the only
segment. -/
theorem last2_strategy_fails_on_single_segment :
    reconstructK 2 (splitDash ((pathToClaudeFolderName "/a-b").data.drop 1)) ≠
      stripTrailingSlash ("/a-b" : String).data ∧
    isExactPathMatch (pathToClaudeFolderName "/a-b") "/a-b" = false := by
  refine ⟨by decide, by decide⟩

/-- C7 witness: the amended theorem at the concrete path `"/u/v/m-n"`. -/
theorem last2_strategy_reconstructs_witness :
    reconstructK 2 (splitDash ((pathToClaudeFolderName
        (String.mk ('/' :: joinSep '/' ([[ 'u' ], [ 'v' ]] ++
          [['m'] ++ '-' :: ['n']])))).data.drop 1)) =
      stripTrailingSlash
        (String.mk ('/' :: joinSep '/' ([[ 'u' ], [ 'v' ]] ++
          [['m'] ++ '-' :: ['n']]))).data ∧
    isExactPathMatch
      (pathToClaudeFolderName
        (String.mk ('/' :: joinSep '/' ([[ 'u' ], [ 'v' ]] ++
          [['m'] ++ '-' :: ['n']]))))
      (String.mk ('/' :: joinSep '/' ([[ 'u' ], [ 'v' ]] ++
        [['m'] ++ '-' :: ['n']]))) = true :=
  last2_strategy_reconstructs [[ 'u' ], [ 'v' ]] ['m'] ['n']
    (by decide) (by decide) (by decide) (by decide) (by decide)
    (by decide) (by decide)
